import Mathlib

/-
  Verification of the chap10 orientation library (Euler angles, quaternions,
  rotation matrices) against its specification.

  The Rust source works on f64; here every numeric value is embedded as a real
  number, so every "within floating tolerance" statement is settled exactly.
  Each definition below mirrors one Rust function of src/chap10, field by field
  and branch by branch; `f64::sin_cos` of `x` is the pair
  (Real.sin x, Real.cos x), `f64::atan2` is the argument of the complex number
  with the given imaginary and real parts, and `f64::floor` is the integer
  floor.  In-place mutating methods are embedded as functions from the receiver
  (plus arguments) to the new value of the receiver.
-/

namespace Chap10

/-- Embedding of Rust `f64::atan2`: `atan2 y x` is the angle of the point
`(x, y)`, in `(-pi, pi]`, with `atan2 0 0 = 0`, which is `Complex.arg` of
`x + y*I`. -/
noncomputable def atan2 (y x : ℝ) : ℝ := Complex.arg ⟨x, y⟩

/-- Constant `PI2` from utils.rs: `PI * 2.0`. -/
noncomputable def PI2 : ℝ := Real.pi * 2

/-- Constant `PI_OVER_2` from utils.rs: `PI / 2.0`. -/
noncomputable def PI_OVER_2 : ℝ := Real.pi / 2

/-- Constant `ONE_OVER_2PI` from utils.rs: `1.0 / PI2`. -/
noncomputable def ONE_OVER_2PI : ℝ := 1 / PI2

/-- Embedding of `GameMath::wrap_pi` for f64 (utils.rs): the running value
starts at `self`, gains `PI`, loses `floor(self * ONE_OVER_2PI) * PI2`
(note: the floor is taken of the original `self`, not of the shifted
running value), then loses `PI`. -/
noncomputable def wrap_pi (x : ℝ) : ℝ :=
  x + Real.pi - (⌊x * ONE_OVER_2PI⌋ : ℝ) * PI2 - Real.pi

/-- Embedding of `GameMath::safe_acos` for f64 (utils.rs). -/
noncomputable def safe_acos (x : ℝ) : ℝ :=
  if x ≤ -1 then Real.pi
  else if 1 ≤ x then 0
  else Real.arccos x

/-- The quaternion record of quaternion.rs. -/
structure Quaternion where
  w : ℝ
  x : ℝ
  y : ℝ
  z : ℝ

/-- The Euler-angle record of euler_angles.rs. -/
structure EulerAngles where
  heading : ℝ
  pitch : ℝ
  bank : ℝ

/-- The 3x3 rotation-matrix record of matrix.rs. -/
structure RotationMatrix where
  m11 : ℝ
  m12 : ℝ
  m13 : ℝ
  m21 : ℝ
  m22 : ℝ
  m23 : ℝ
  m31 : ℝ
  m32 : ℝ
  m33 : ℝ

/-- `Quaternion::identitiy` (sic) from quaternion.rs. -/
def Quaternion.identitiy : Quaternion := ⟨1, 0, 0, 0⟩

/-- Negation of all four components of a quaternion (the other representative
of the same rotation under the double cover); used to state the claims about
`-q`. -/
def Quaternion.negAll (q : Quaternion) : Quaternion := ⟨-q.w, -q.x, -q.y, -q.z⟩

/-- `Quaternion::dot` from quaternion.rs. -/
def Quaternion.dot (a b : Quaternion) : ℝ :=
  a.w * b.w + a.x * b.x + a.y * b.y + a.z * b.z

/-- The magnitude expression computed at the top of `Quaternion::normalize`. -/
noncomputable def Quaternion.mag (q : Quaternion) : ℝ :=
  Real.sqrt (q.w * q.w + q.x * q.x + q.y * q.y + q.z * q.z)

/-- Embedding of `Quaternion::normalize` (quaternion.rs): rescale by
`1/mag` when `mag > 0.0`, otherwise leave the receiver unchanged. -/
noncomputable def Quaternion.normalize (q : Quaternion) : Quaternion :=
  if 0 < q.mag then
    ⟨q.w * (1 / q.mag), q.x * (1 / q.mag), q.y * (1 / q.mag), q.z * (1 / q.mag)⟩
  else q

/-- Embedding of `Quaternion::rotate_obj_to_inertial` (quaternion.rs), as a
function from the Euler angles to the quaternion written into `self`.
`p`, `b`, `h` are the `sin_cos` pairs of the half angles; Rust `.0` (sine)
is `.1` here and Rust `.1` (cosine) is `.2`. -/
noncomputable def rotate_obj_to_inertial (orientation : EulerAngles) : Quaternion :=
  let p := (Real.sin (orientation.pitch * 0.5), Real.cos (orientation.pitch * 0.5))
  let b := (Real.sin (orientation.bank * 0.5), Real.cos (orientation.bank * 0.5))
  let h := (Real.sin (orientation.heading * 0.5), Real.cos (orientation.heading * 0.5))
  { w := h.2 * p.2 * b.2 + h.1 * p.1 * b.1
    x := h.2 * p.1 * b.2 + h.1 * p.2 * b.1
    y := -h.2 * p.1 * b.1 + h.1 * p.2 * b.2
    z := -h.1 * p.1 * b.2 + h.2 * p.2 * b.1 }

/-- Embedding of `Quaternion::slerp` (quaternion.rs).  The source copies
`self`'s four components into mutable locals and negates them together with
`cos_omega` when `cos_omega < 0`, but those locals are never read again
(the final blend reads `self.w` and `other.w` directly), so only the negated
cosine is kept here.  Note the source computes
`k0 = sin(((1-t)*omega) * (1/sin_omega))`, i.e. the division by `sin_omega`
happens inside the argument of `sin`. -/
noncomputable def Quaternion.slerp (a b : Quaternion) (t : ℝ) : Quaternion :=
  if t ≤ 0 then a
  else if 1 ≤ t then b
  else
    let cosOmega0 := a.dot b
    let cosOmega := if cosOmega0 < 0 then -cosOmega0 else cosOmega0
    let k :=
      if 0.9999 < cosOmega then ((1 : ℝ) - t, t)
      else
        let sinOmega := Real.sqrt (1 - cosOmega * cosOmega)
        let omega := atan2 sinOmega cosOmega
        (Real.sin ((1 - t) * omega * (1 / sinOmega)),
         Real.sin (t * omega * (1 / sinOmega)))
    ⟨k.1 * a.w + k.2 * b.w, k.1 * a.x + k.2 * b.x,
     k.1 * a.y + k.2 * b.y, k.1 * a.z + k.2 * b.z⟩

/-- Embedding of `Quaternion::pow` (quaternion.rs). -/
noncomputable def Quaternion.pow (q : Quaternion) (exp : ℝ) : Quaternion :=
  if 0.9999 < |q.w| then q
  else
    let alpha := Real.arccos q.w
    let newAlpha := alpha * exp
    let mult := Real.sin newAlpha / Real.sin alpha
    ⟨Real.cos newAlpha, q.x * mult, q.y * mult, q.z * mult⟩

/-- Embedding of `EulerAngles::from_obj_to_inertial_quaternion`
(euler_angles.rs).  The local `sp = -2.0 * (q.x * q.z - q.w * q.x)` is
inlined at its three use sites. -/
noncomputable def EulerAngles.from_obj_to_inertial_quaternion (q : Quaternion) : EulerAngles :=
  if 0.9999 < |(-2 * (q.x * q.z - q.w * q.x))| then
    { heading := atan2 (-q.x * q.z + q.w * q.y) (0.5 - q.y * q.y - q.z * q.z)
      pitch := PI_OVER_2 * (-2 * (q.x * q.z - q.w * q.x))
      bank := 0 }
  else
    { heading := atan2 (q.x * q.z + q.w * q.y) (0.5 - q.x * q.x - q.y * q.y)
      pitch := Real.arcsin (-2 * (q.x * q.z - q.w * q.x))
      bank := atan2 (q.x * q.y + q.w * q.z) (0.5 - q.x * q.x - q.z * q.z) }

/-- Embedding of `EulerAngles::from_rotation_matrix` (euler_angles.rs), with
the local `sp = -m.m23` inlined.  The gimbal-lock test really compares
against `9.99999` in the source. -/
noncomputable def EulerAngles.from_rotation_matrix (m : RotationMatrix) : EulerAngles :=
  if 9.99999 < |(-m.m23)| then
    { heading := atan2 (-m.m31) m.m11
      pitch := PI_OVER_2 * (-m.m23)
      bank := 0 }
  else
    { heading := atan2 m.m13 m.m33
      pitch := Real.arcsin (-m.m23)
      bank := atan2 m.m21 m.m22 }

/-- Embedding of `EulerAngles::canonize` (euler_angles.rs), as a function from
the receiver to its final value; `e1`, `e2`, `e3` are the receiver's states
after each mutation step of the source. -/
noncomputable def EulerAngles.canonize (e : EulerAngles) : EulerAngles :=
  let e1 : EulerAngles := { e with pitch := wrap_pi e.pitch }
  let e2 : EulerAngles :=
    if e1.pitch < -PI_OVER_2 then
      { heading := e1.heading + Real.pi, pitch := -Real.pi - e1.pitch,
        bank := e1.bank + Real.pi }
    else if PI_OVER_2 < e1.pitch then
      { heading := e1.heading + Real.pi, pitch := Real.pi - e1.pitch,
        bank := e1.bank + Real.pi }
    else e1
  let e3 : EulerAngles :=
    if PI_OVER_2 - 1e-4 < |e2.pitch| then
      { e2 with heading := e2.heading + e2.bank, bank := 0 }
    else
      { e2 with bank := wrap_pi e2.bank }
  { e3 with heading := wrap_pi e3.heading }

/-- Embedding of `RotationMatrix::from_orientation` (matrix.rs); `p`, `b`,
`h` are the `sin_cos` pairs of the full angles (Rust `.0`/sine is `.1`,
Rust `.1`/cosine is `.2`). -/
noncomputable def RotationMatrix.from_orientation (orientation : EulerAngles) : RotationMatrix :=
  let p := (Real.sin orientation.pitch, Real.cos orientation.pitch)
  let b := (Real.sin orientation.bank, Real.cos orientation.bank)
  let h := (Real.sin orientation.heading, Real.cos orientation.heading)
  { m11 := h.2 * b.2 + h.1 * p.1 * b.1
    m12 := -h.2 * b.1 + h.1 * p.1 * b.2
    m13 := h.1 * p.2
    m21 := b.1 * p.2
    m22 := b.2 * p.2
    m23 := -p.1
    m31 := -h.1 * b.2 + h.2 * p.1 * b.1
    m32 := b.1 * h.1 + h.2 * p.1 * b.2
    m33 := h.2 * p.2 }

/-- Embedding of `RotationMatrix::from_inertial_to_obj_quaternion`
(matrix.rs). -/
def RotationMatrix.from_inertial_to_obj_quaternion (q : Quaternion) : RotationMatrix :=
  { m11 := 1 - 2 * (q.y * q.y + q.z * q.z)
    m12 := 2 * (q.x * q.y + q.w * q.z)
    m13 := 2 * (q.x * q.z - q.w * q.y)
    m21 := 2 * (q.x * q.y - q.w * q.z)
    m22 := 1 - 2 * (q.x * q.x + q.z * q.z)
    m23 := 2 * (q.y * q.z + q.w * q.x)
    m31 := 2 * (q.x * q.z + q.w * q.y)
    m32 := 2 * (q.y * q.z - q.w * q.x)
    m33 := 1 - 2 * (q.x * q.x + q.y * q.y) }

/-- Mathematical transpose of a rotation matrix, used to state the
orthonormality claim. -/
def RotationMatrix.transpose (m : RotationMatrix) : RotationMatrix :=
  ⟨m.m11, m.m21, m.m31, m.m12, m.m22, m.m32, m.m13, m.m23, m.m33⟩

/-- Mathematical 3x3 matrix product, used to state the orthonormality
claim. -/
def RotationMatrix.mul (a b : RotationMatrix) : RotationMatrix :=
  { m11 := a.m11 * b.m11 + a.m12 * b.m21 + a.m13 * b.m31
    m12 := a.m11 * b.m12 + a.m12 * b.m22 + a.m13 * b.m32
    m13 := a.m11 * b.m13 + a.m12 * b.m23 + a.m13 * b.m33
    m21 := a.m21 * b.m11 + a.m22 * b.m21 + a.m23 * b.m31
    m22 := a.m21 * b.m12 + a.m22 * b.m22 + a.m23 * b.m32
    m23 := a.m21 * b.m13 + a.m22 * b.m23 + a.m23 * b.m33
    m31 := a.m31 * b.m11 + a.m32 * b.m21 + a.m33 * b.m31
    m32 := a.m31 * b.m12 + a.m32 * b.m22 + a.m33 * b.m32
    m33 := a.m31 * b.m13 + a.m32 * b.m23 + a.m33 * b.m33 }

/-- `RotationMatrix::identity` from matrix.rs (also the mathematical identity
matrix for the orthonormality claim). -/
def RotationMatrix.identity : RotationMatrix := ⟨1, 0, 0, 0, 1, 0, 0, 0, 1⟩

-- Helper for evaluating `wrap_pi` at a concrete multiple of 2*pi.
lemma wrap_pi_eval (c : ℝ) (n : ℤ) (h1 : (n : ℝ) ≤ c) (h2 : c < n + 1) :
    wrap_pi (c * PI2) = c * PI2 - n * PI2 := by
  have hpi : Real.pi ≠ 0 := Real.pi_ne_zero
  have hc : c * PI2 * ONE_OVER_2PI = c := by
    unfold ONE_OVER_2PI PI2
    field_simp
  have hfloor : ⌊c * PI2 * ONE_OVER_2PI⌋ = n := by
    rw [hc]
    exact Int.floor_eq_iff.mpr ⟨h1, by exact_mod_cast h2⟩
  unfold wrap_pi
  rw [hfloor]
  ring

-- Concrete values of `wrap_pi` shared by several claims.
lemma wrap_pi_zero : wrap_pi 0 = 0 := by
  have h : (0 : ℝ) = (0 : ℝ) * PI2 := by ring
  rw [h, wrap_pi_eval 0 0 (by norm_num) (by norm_num)]
  push_cast
  ring

lemma wrap_pi_neg_half_pi : wrap_pi (-(Real.pi / 2)) = 3 * Real.pi / 2 := by
  have h : -(Real.pi / 2) = (-(1/4) : ℝ) * PI2 := by unfold PI2; ring
  rw [h, wrap_pi_eval (-(1/4)) (-1) (by norm_num) (by norm_num)]
  unfold PI2
  push_cast
  ring

-- Evaluation of `canonize` when none of its three branches fires.
lemma canonize_eval (e : EulerAngles)
    (h1 : ¬ wrap_pi e.pitch < -PI_OVER_2)
    (h2 : ¬ PI_OVER_2 < wrap_pi e.pitch)
    (h3 : ¬ PI_OVER_2 - 1e-4 < |wrap_pi e.pitch|) :
    e.canonize = ⟨wrap_pi e.heading, wrap_pi e.pitch, wrap_pi e.bank⟩ := by
  simp only [EulerAngles.canonize]
  rw [if_neg h1, if_neg h2, if_neg h3]

/-- C3: the spec claims `wrap_pi` maps every angle into `(-pi, pi]` and leaves
in-range inputs unchanged.  On the code this fails: `wrap_pi` floors the
unshifted input, so `wrap_pi (-pi/2) = 3*pi/2`, which lies outside `(-pi, pi]`
even though the input `-pi/2` was already in range.  The two concrete spec
values do hold: `wrap_pi (3*pi) = pi` and `wrap_pi (-(3*pi)) = pi`. -/
theorem C3_wrap_pi_code_divergence :
    wrap_pi (-(Real.pi / 2)) = 3 * Real.pi / 2 ∧
    Real.pi < 3 * Real.pi / 2 ∧
    (-(Real.pi / 2)) ∈ Set.Ioc (-Real.pi) Real.pi ∧
    wrap_pi (3 * Real.pi) = Real.pi ∧
    wrap_pi (-(3 * Real.pi)) = Real.pi := by
  have hπ : 0 < Real.pi := Real.pi_pos
  refine ⟨wrap_pi_neg_half_pi, by linarith,
    Set.mem_Ioc.mpr ⟨by linarith, by linarith⟩, ?_, ?_⟩
  · have h : 3 * Real.pi = (3/2 : ℝ) * PI2 := by unfold PI2; ring
    rw [h, wrap_pi_eval (3/2) 1 (by norm_num) (by norm_num)]
    unfold PI2
    push_cast
    ring
  · have h : -(3 * Real.pi) = (-(3/2) : ℝ) * PI2 := by unfold PI2; ring
    rw [h, wrap_pi_eval (-(3/2)) (-2) (by norm_num) (by norm_num)]
    unfold PI2
    push_cast
    ring

/-- C2: the spec claims that after `canonize` the triple satisfies
`pitch ∈ [-pi/2, pi/2]` and `heading, bank ∈ (-pi, pi]`.  On the code this
fails: for the input `{heading: -pi/2, pitch: 0, bank: 0}` no reflection or
gimbal branch fires, so the final heading is `wrap_pi (-pi/2) = 3*pi/2`,
which is greater than `pi` and hence outside `(-pi, pi]`. -/
theorem C2_canonize_heading_out_of_range :
    (EulerAngles.canonize ⟨-(Real.pi / 2), 0, 0⟩).heading = 3 * Real.pi / 2 ∧
    Real.pi < 3 * Real.pi / 2 := by
  have hπ : 0 < Real.pi := Real.pi_pos
  have hπ3 : 3 < Real.pi := Real.pi_gt_three
  have hc : EulerAngles.canonize ⟨-(Real.pi / 2), 0, 0⟩ =
      ⟨wrap_pi (-(Real.pi / 2)), wrap_pi 0, wrap_pi 0⟩ := by
    apply canonize_eval <;> simp only [wrap_pi_zero] <;> unfold PI_OVER_2
    · intro h
      linarith
    · intro h
      linarith
    · intro h
      rw [abs_zero] at h
      norm_num at h
      linarith
  rw [hc]
  exact ⟨wrap_pi_neg_half_pi, by linarith⟩

/-- C9: `normalize` leaves a quaternion of magnitude exactly zero unchanged
(no division happens), and any quaternion of nonzero magnitude is rescaled to
unit norm. -/
theorem C9_normalize_zero_or_unit (q : Quaternion) :
    (q.mag = 0 → q.normalize = q) ∧ (q.mag ≠ 0 → q.normalize.mag = 1) := by
  constructor
  · intro h
    unfold Quaternion.normalize
    rw [if_neg]
    rw [h]
    exact lt_irrefl 0
  · intro h
    have hpos : 0 < q.mag := lt_of_le_of_ne (Real.sqrt_nonneg _) (Ne.symm h)
    have h0 : 0 ≤ q.w * q.w + q.x * q.x + q.y * q.y + q.z * q.z := by
      nlinarith [mul_self_nonneg q.w, mul_self_nonneg q.x,
        mul_self_nonneg q.y, mul_self_nonneg q.z]
    have hS : q.w * q.w + q.x * q.x + q.y * q.y + q.z * q.z = q.mag ^ 2 :=
      (Real.sq_sqrt h0).symm
    unfold Quaternion.normalize
    rw [if_pos hpos]
    show Real.sqrt _ = 1
    have hsum : q.w * (1 / q.mag) * (q.w * (1 / q.mag)) +
        q.x * (1 / q.mag) * (q.x * (1 / q.mag)) +
        q.y * (1 / q.mag) * (q.y * (1 / q.mag)) +
        q.z * (1 / q.mag) * (q.z * (1 / q.mag)) =
        (q.w * q.w + q.x * q.x + q.y * q.y + q.z * q.z) * (1 / q.mag) ^ 2 := by
      ring
    rw [hsum, hS, show q.mag ^ 2 * (1 / q.mag) ^ 2 = 1 by field_simp, Real.sqrt_one]

/-- Witness for C9 at two concrete quaternions: the zero quaternion is left
unchanged, and a nonzero one is rescaled to unit magnitude. -/
theorem C9_normalize_zero_or_unit_witness :
    (Quaternion.mk 0 0 0 0).normalize = ⟨0, 0, 0, 0⟩ ∧
    (Quaternion.mk 3 0 0 0).normalize.mag = 1 := by
  constructor
  · exact (C9_normalize_zero_or_unit ⟨0, 0, 0, 0⟩).1 (by simp [Quaternion.mag])
  · refine (C9_normalize_zero_or_unit ⟨3, 0, 0, 0⟩).2 ?_
    simp only [Quaternion.mag, Real.sqrt_ne_zero']
    norm_num

/-- C6: a unit quaternion and its negation produce the same rotation matrix
under `from_inertial_to_obj_quaternion` and the same Euler angles under
`from_obj_to_inertial_quaternion`.  This holds for every quaternion, unit or
not, because every entry, branch condition and arctangent argument is
quadratic in the components. -/
theorem C6_double_cover (q : Quaternion) :
    RotationMatrix.from_inertial_to_obj_quaternion q.negAll =
      RotationMatrix.from_inertial_to_obj_quaternion q ∧
    EulerAngles.from_obj_to_inertial_quaternion q.negAll =
      EulerAngles.from_obj_to_inertial_quaternion q := by
  constructor
  · simp only [RotationMatrix.from_inertial_to_obj_quaternion, Quaternion.negAll,
      RotationMatrix.mk.injEq]
    refine ⟨?_, ?_, ?_, ?_, ?_, ?_, ?_, ?_, ?_⟩ <;> ring
  · simp only [EulerAngles.from_obj_to_inertial_quaternion, Quaternion.negAll]
    ring_nf

-- Branch-evaluation helpers for the quaternion-to-Euler conversion.
lemma from_obj_lock_pitch (q : Quaternion)
    (h : 0.9999 < |(-2 * (q.x * q.z - q.w * q.x))|) :
    (EulerAngles.from_obj_to_inertial_quaternion q).pitch =
      PI_OVER_2 * (-2 * (q.x * q.z - q.w * q.x)) := by
  unfold EulerAngles.from_obj_to_inertial_quaternion
  rw [if_pos h]

lemma from_obj_regular_pitch (q : Quaternion)
    (h : ¬ 0.9999 < |(-2 * (q.x * q.z - q.w * q.x))|) :
    (EulerAngles.from_obj_to_inertial_quaternion q).pitch =
      Real.arcsin (-2 * (q.x * q.z - q.w * q.x)) := by
  unfold EulerAngles.from_obj_to_inertial_quaternion
  rw [if_neg h]

/-- C8, counterexample: the quaternion `(-1, 0, 0, 0)` is a unit quaternion
distinct from the identity, yet `pow` with exponent `0` returns it unchanged
(its `w` is `2` away from the identity's `1`), because the near-identity
early return fires for `|w| > 0.9999`.  So `q.pow(0) == identity` does not
hold for every non-identity unit quaternion. -/
theorem C8_pow_zero_counterexample :
    (Quaternion.mk (-1) 0 0 0).w ^ 2 + (Quaternion.mk (-1) 0 0 0).x ^ 2 +
      (Quaternion.mk (-1) 0 0 0).y ^ 2 + (Quaternion.mk (-1) 0 0 0).z ^ 2 = 1 ∧
    Quaternion.mk (-1) 0 0 0 ≠ Quaternion.identitiy ∧
    (Quaternion.mk (-1) 0 0 0).pow 0 = ⟨-1, 0, 0, 0⟩ ∧
    |((Quaternion.mk (-1) 0 0 0).pow 0).w - 1| = 2 := by
  have hb : (0.9999 : ℝ) < |(Quaternion.mk (-1) 0 0 0).w| := by norm_num
  have hpow : (Quaternion.mk (-1) 0 0 0).pow 0 = ⟨-1, 0, 0, 0⟩ := by
    unfold Quaternion.pow
    rw [if_pos hb]
  refine ⟨by norm_num, ?_, hpow, ?_⟩
  · simp only [Quaternion.identitiy, ne_eq, Quaternion.mk.injEq]
    norm_num
  · rw [hpow]
    norm_num

/-- C8, amended: for every unit quaternion whose `w` stays out of the
near-identity guard (`|w| ≤ 0.9999`), `pow 1` returns the quaternion exactly
and `pow 0` returns the identity exactly; and whenever `|w| > 0.9999`,
`pow` returns the quaternion unchanged for every exponent. -/
theorem C8_pow_amended (q : Quaternion) (e : ℝ) :
    (|q.w| ≤ 0.9999 → q.pow 1 = q ∧ q.pow 0 = Quaternion.identitiy) ∧
    (0.9999 < |q.w| → q.pow e = q) := by
  constructor
  · intro h
    have hnot : ¬ 0.9999 < |q.w| := not_lt.mpr h
    have hw1 : q.w ≤ 1 := le_trans (le_abs_self _) (le_trans h (by norm_num))
    have hw2 : -1 ≤ q.w := by
      have := neg_abs_le q.w
      linarith
    have hlt : q.w ^ 2 < 1 := by
      have habs : q.w ^ 2 = |q.w| ^ 2 := (sq_abs q.w).symm
      nlinarith [abs_nonneg q.w]
    have hsin : Real.sin (Real.arccos q.w) ≠ 0 := by
      rw [Real.sin_arccos]
      exact Real.sqrt_ne_zero'.mpr (by linarith)
    constructor
    · unfold Quaternion.pow
      rw [if_neg hnot]
      simp only [mul_one, div_self hsin, Real.cos_arccos hw2 hw1]
    · unfold Quaternion.pow
      rw [if_neg hnot]
      simp only [mul_zero, Real.sin_zero, Real.cos_zero, zero_div,
        mul_zero, Quaternion.identitiy]
  · intro h
    unfold Quaternion.pow
    rw [if_pos h]

/-- Witness for the amended C8: applies it at `(0,1,0,0)` (a unit quaternion
with `|w| ≤ 0.9999`) and at `(1,0,0,0)` (inside the near-identity guard). -/
theorem C8_pow_amended_witness :
    ((Quaternion.mk 0 1 0 0).pow 1 = ⟨0, 1, 0, 0⟩ ∧
      (Quaternion.mk 0 1 0 0).pow 0 = Quaternion.identitiy) ∧
    (Quaternion.mk 1 0 0 0).pow 5 = ⟨1, 0, 0, 0⟩ :=
  ⟨(C8_pow_amended ⟨0, 1, 0, 0⟩ 1).1 (by norm_num),
   (C8_pow_amended ⟨1, 0, 0, 0⟩ 5).2 (by norm_num)⟩

/-- C4: the claim says that for `dot a b < 0` slerp negates `b`'s components
before blending.  The source instead negates never-read copies of `a`'s
components, so `b` enters the blend un-negated: at `a = (1,0,0,0)`,
`b = (-1,0,0,0)`, `t = 1/2` the code returns the zero quaternion, while
blending `a` with the negation of `b` (what the claim prescribes) returns
`a` itself. -/
theorem C4_slerp_shorter_arc_not_taken :
    Quaternion.slerp ⟨1, 0, 0, 0⟩ ⟨-1, 0, 0, 0⟩ (1/2) = ⟨0, 0, 0, 0⟩ ∧
    Quaternion.slerp ⟨1, 0, 0, 0⟩ (Quaternion.negAll ⟨-1, 0, 0, 0⟩) (1/2) =
      ⟨1, 0, 0, 0⟩ := by
  constructor <;>
    · simp only [Quaternion.slerp, Quaternion.dot, Quaternion.negAll]
      norm_num

/-- C10: the claim says the Euler angles coming out of
`from_obj_to_inertial_quaternion` always satisfy `pitch ∈ [-pi/2, pi/2]`,
because in the gimbal branch `pitch` is `pi/2` times a sine of magnitude at
most one.  For the unit quaternion `(-1/2, sqrt 2 / 2, 0, 1/2)` the code's
`sp` value is `-sqrt 2` (the `q.x * q.z` term should have been
`q.y * q.z`), the gimbal branch fires, and the returned pitch
`-(pi/2) * sqrt 2` lies strictly below `-pi/2`. -/
theorem C10_pitch_escapes_range :
    (Quaternion.mk (-(1/2)) (Real.sqrt 2 / 2) 0 (1/2)).w ^ 2 +
      (Quaternion.mk (-(1/2)) (Real.sqrt 2 / 2) 0 (1/2)).x ^ 2 +
      (Quaternion.mk (-(1/2)) (Real.sqrt 2 / 2) 0 (1/2)).y ^ 2 +
      (Quaternion.mk (-(1/2)) (Real.sqrt 2 / 2) 0 (1/2)).z ^ 2 = 1 ∧
    (EulerAngles.from_obj_to_inertial_quaternion
      ⟨-(1/2), Real.sqrt 2 / 2, 0, 1/2⟩).pitch < -(Real.pi / 2) := by
  have h2 : Real.sqrt 2 ^ 2 = 2 := Real.sq_sqrt (by norm_num)
  have hs2 : 1 < Real.sqrt 2 := by
    nlinarith [Real.sqrt_nonneg 2]
  constructor
  · show (-(1/2) : ℝ) ^ 2 + (Real.sqrt 2 / 2) ^ 2 + 0 ^ 2 + (1/2) ^ 2 = 1
    linear_combination h2 / 4
  · have hcond : (0.9999 : ℝ) <
        |(-2 * (Real.sqrt 2 / 2 * (1/2) - -(1/2) * (Real.sqrt 2 / 2)))| := by
      rw [show (-2 * (Real.sqrt 2 / 2 * (1/2) - -(1/2) * (Real.sqrt 2 / 2)))
            = -Real.sqrt 2 by ring, abs_neg, abs_of_nonneg (Real.sqrt_nonneg 2)]
      linarith
    rw [from_obj_lock_pitch ⟨-(1/2), Real.sqrt 2 / 2, 0, 1/2⟩ hcond]
    show PI_OVER_2 * (-2 * (Real.sqrt 2 / 2 * (1/2) - -(1/2) * (Real.sqrt 2 / 2)))
        < -(Real.pi / 2)
    unfold PI_OVER_2
    nlinarith [Real.pi_pos, mul_pos Real.pi_pos (sub_pos.mpr hs2)]

/-- C7: every matrix produced by the Euler-to-matrix conversion
(`from_orientation`, any angles) and by the quaternion-to-matrix conversion
(`from_inertial_to_obj_quaternion`, any unit quaternion) is orthonormal:
its transpose times itself is exactly the identity matrix. -/
theorem C7_orthonormal (e : EulerAngles) (q : Quaternion)
    (hq : q.w ^ 2 + q.x ^ 2 + q.y ^ 2 + q.z ^ 2 = 1) :
    (RotationMatrix.from_orientation e).transpose.mul
      (RotationMatrix.from_orientation e) = RotationMatrix.identity ∧
    (RotationMatrix.from_inertial_to_obj_quaternion q).transpose.mul
      (RotationMatrix.from_inertial_to_obj_quaternion q) =
        RotationMatrix.identity := by
  constructor
  · have hh := Real.sin_sq_add_cos_sq e.heading
    have hp := Real.sin_sq_add_cos_sq e.pitch
    have hb := Real.sin_sq_add_cos_sq e.bank
    simp only [RotationMatrix.from_orientation, RotationMatrix.transpose,
      RotationMatrix.mul, RotationMatrix.identity, RotationMatrix.mk.injEq]
    refine ⟨?_, ?_, ?_, ?_, ?_, ?_, ?_, ?_, ?_⟩
    · linear_combination (Real.cos e.bank ^ 2 +
        Real.sin e.pitch ^ 2 * Real.sin e.bank ^ 2) * hh +
        Real.sin e.bank ^ 2 * hp + hb
    · linear_combination (Real.sin e.bank * Real.cos e.bank *
        (Real.sin e.pitch ^ 2 - 1)) * hh +
        Real.sin e.bank * Real.cos e.bank * hp
    · linear_combination (Real.sin e.pitch * Real.cos e.pitch *
        Real.sin e.bank) * hh
    · linear_combination (Real.sin e.bank * Real.cos e.bank *
        (Real.sin e.pitch ^ 2 - 1)) * hh +
        Real.sin e.bank * Real.cos e.bank * hp
    · linear_combination (Real.sin e.bank ^ 2 +
        Real.sin e.pitch ^ 2 * Real.cos e.bank ^ 2) * hh +
        Real.cos e.bank ^ 2 * hp + hb
    · linear_combination (Real.sin e.pitch * Real.cos e.pitch *
        Real.cos e.bank) * hh
    · linear_combination (Real.sin e.pitch * Real.cos e.pitch *
        Real.sin e.bank) * hh
    · linear_combination (Real.sin e.pitch * Real.cos e.pitch *
        Real.cos e.bank) * hh
    · linear_combination Real.cos e.pitch ^ 2 * hh + hp
  · simp only [RotationMatrix.from_inertial_to_obj_quaternion,
      RotationMatrix.transpose, RotationMatrix.mul, RotationMatrix.identity,
      RotationMatrix.mk.injEq]
    refine ⟨?_, ?_, ?_, ?_, ?_, ?_, ?_, ?_, ?_⟩
    · linear_combination (4 * (q.y ^ 2 + q.z ^ 2)) * hq
    · linear_combination (-4 * q.x * q.y) * hq
    · linear_combination (-4 * q.x * q.z) * hq
    · linear_combination (-4 * q.x * q.y) * hq
    · linear_combination (4 * (q.x ^ 2 + q.z ^ 2)) * hq
    · linear_combination (-4 * q.y * q.z) * hq
    · linear_combination (-4 * q.x * q.z) * hq
    · linear_combination (-4 * q.y * q.z) * hq
    · linear_combination (4 * (q.x ^ 2 + q.y ^ 2)) * hq

/-- Witness for C7 at the identity angles and the identity quaternion. -/
theorem C7_orthonormal_witness :
    ((Quaternion.mk 1 0 0 0).w ^ 2 + (Quaternion.mk 1 0 0 0).x ^ 2 +
      (Quaternion.mk 1 0 0 0).y ^ 2 + (Quaternion.mk 1 0 0 0).z ^ 2 = 1) ∧
    ((RotationMatrix.from_orientation ⟨0, 0, 0⟩).transpose.mul
      (RotationMatrix.from_orientation ⟨0, 0, 0⟩) = RotationMatrix.identity ∧
    (RotationMatrix.from_inertial_to_obj_quaternion ⟨1, 0, 0, 0⟩).transpose.mul
      (RotationMatrix.from_inertial_to_obj_quaternion ⟨1, 0, 0, 0⟩) =
        RotationMatrix.identity) :=
  ⟨by norm_num, C7_orthonormal ⟨0, 0, 0⟩ ⟨1, 0, 0, 0⟩ (by norm_num)⟩

-- Concrete value of wrap_pi at pi/6, used for the round-trip evaluation.
lemma wrap_pi_pi_div_six : wrap_pi (Real.pi / 6) = Real.pi / 6 := by
  have h : Real.pi / 6 = (1/12 : ℝ) * PI2 := by unfold PI2; ring
  rw [h, wrap_pi_eval (1/12) 0 (by norm_num) (by norm_num)]
  push_cast
  ring

/-- C1: the round trip Euler -> quaternion -> Euler fails on the code.  For
the canonical, non-gimbal-locked input `{heading: pi/2, pitch: pi/4, bank: 0}`
(its pitch satisfies `|pi/4| < pi/2 - eps`), converting through
`rotate_obj_to_inertial` and back through `from_obj_to_inertial_quaternion`
and canonicalizing yields pitch `pi/6`, not `pi/4`: the code's `sp` uses
`q.x * q.z` where the matrix correspondence requires `q.y * q.z`. -/
theorem C1_round_trip_pitch_wrong :
    |(Real.pi / 4)| < Real.pi / 2 - 1e-4 ∧
    (EulerAngles.canonize (EulerAngles.from_obj_to_inertial_quaternion
      (rotate_obj_to_inertial ⟨Real.pi / 2, Real.pi / 4, 0⟩))).pitch =
      Real.pi / 6 ∧
    Real.pi / 6 ≠ Real.pi / 4 := by
  have hπ : 0 < Real.pi := Real.pi_pos
  have hπ3 : 3 < Real.pi := Real.pi_gt_three
  have h2 : Real.sqrt 2 ^ 2 = 2 := Real.sq_sqrt (by norm_num)
  -- the quaternion produced by rotate_obj_to_inertial
  have hq : rotate_obj_to_inertial ⟨Real.pi / 2, Real.pi / 4, 0⟩ =
      ⟨Real.cos (Real.pi / 4) * Real.cos (Real.pi / 8),
       Real.cos (Real.pi / 4) * Real.sin (Real.pi / 8),
       Real.sin (Real.pi / 4) * Real.cos (Real.pi / 8),
       -(Real.sin (Real.pi / 4) * Real.sin (Real.pi / 8))⟩ := by
    simp only [rotate_obj_to_inertial]
    rw [show ((0 : ℝ) * 0.5) = 0 by norm_num,
      show (Real.pi / 2 * 0.5) = Real.pi / 4 by ring,
      show (Real.pi / 4 * 0.5) = Real.pi / 8 by ring]
    simp only [Real.sin_zero, Real.cos_zero, Quaternion.mk.injEq]
    refine ⟨by ring, by ring, by ring, by ring⟩
  -- the half-angle values at pi/8
  have hc8sq : Real.cos (Real.pi / 8) ^ 2 = 1/2 + Real.sqrt 2 / 2 / 2 := by
    have h := Real.cos_sq (Real.pi / 8)
    rw [show 2 * (Real.pi / 8) = Real.pi / 4 by ring, Real.cos_pi_div_four] at h
    exact h
  have hs8sq : Real.sin (Real.pi / 8) ^ 2 = 1/2 - Real.sqrt 2 / 2 / 2 := by
    rw [Real.sin_sq, hc8sq]
    ring
  have hsc8 : Real.sin (Real.pi / 8) * Real.cos (Real.pi / 8) =
      Real.sqrt 2 / 2 / 2 := by
    have h := Real.sin_two_mul (Real.pi / 8)
    rw [show 2 * (Real.pi / 8) = Real.pi / 4 by ring, Real.sin_pi_div_four] at h
    linarith
  -- the code's sp value on that quaternion is 1/2
  have hsp : -2 * ((rotate_obj_to_inertial ⟨Real.pi / 2, Real.pi / 4, 0⟩).x *
      (rotate_obj_to_inertial ⟨Real.pi / 2, Real.pi / 4, 0⟩).z -
      (rotate_obj_to_inertial ⟨Real.pi / 2, Real.pi / 4, 0⟩).w *
      (rotate_obj_to_inertial ⟨Real.pi / 2, Real.pi / 4, 0⟩).x) = 1/2 := by
    rw [hq]
    show -2 * (Real.cos (Real.pi / 4) * Real.sin (Real.pi / 8) *
        -(Real.sin (Real.pi / 4) * Real.sin (Real.pi / 8)) -
      Real.cos (Real.pi / 4) * Real.cos (Real.pi / 8) *
        (Real.cos (Real.pi / 4) * Real.sin (Real.pi / 8))) = 1/2
    rw [Real.cos_pi_div_four, Real.sin_pi_div_four]
    linear_combination ((Real.sin (Real.pi / 8) ^ 2 +
      Real.cos (Real.pi / 8) * Real.sin (Real.pi / 8)) / 2) * h2 + hs8sq + hsc8
  have hcond : ¬ (0.9999 : ℝ) <
      |(-2 * ((rotate_obj_to_inertial ⟨Real.pi / 2, Real.pi / 4, 0⟩).x *
        (rotate_obj_to_inertial ⟨Real.pi / 2, Real.pi / 4, 0⟩).z -
        (rotate_obj_to_inertial ⟨Real.pi / 2, Real.pi / 4, 0⟩).w *
        (rotate_obj_to_inertial ⟨Real.pi / 2, Real.pi / 4, 0⟩).x))| := by
    rw [hsp, abs_of_nonneg (by norm_num : (0:ℝ) ≤ 1/2)]
    norm_num
  have hp6 : (EulerAngles.from_obj_to_inertial_quaternion
      (rotate_obj_to_inertial ⟨Real.pi / 2, Real.pi / 4, 0⟩)).pitch =
      Real.pi / 6 := by
    rw [from_obj_regular_pitch _ hcond, hsp,
      show (1/2 : ℝ) = Real.sin (Real.pi / 6) from Real.sin_pi_div_six.symm]
    exact Real.arcsin_sin (by linarith) (by linarith)
  have hwp : wrap_pi (EulerAngles.from_obj_to_inertial_quaternion
      (rotate_obj_to_inertial ⟨Real.pi / 2, Real.pi / 4, 0⟩)).pitch =
      Real.pi / 6 := by
    rw [hp6, wrap_pi_pi_div_six]
  refine ⟨?_, ?_, ?_⟩
  · rw [abs_of_nonneg (by linarith)]
    norm_num
    linarith
  · rw [canonize_eval _ ?_ ?_ ?_]
    · exact hwp
    · rw [hwp]
      unfold PI_OVER_2
      intro h
      linarith
    · rw [hwp]
      unfold PI_OVER_2
      intro h
      linarith
    · rw [hwp]
      unfold PI_OVER_2
      rw [abs_of_nonneg (by linarith)]
      intro h
      norm_num at h
      linarith
  · intro h
    have : Real.pi = 0 := by linarith
    exact Real.pi_ne_zero this

-- Branch-evaluation helper for the matrix-to-Euler conversion.
lemma from_rm_regular (m : RotationMatrix) (h : ¬ 9.99999 < |(-m.m23)|) :
    EulerAngles.from_rotation_matrix m =
      ⟨atan2 m.m13 m.m33, Real.arcsin (-m.m23), atan2 m.m21 m.m22⟩ := by
  unfold EulerAngles.from_rotation_matrix
  rw [if_neg h]

-- atan2 at the origin, as in Rust.
lemma atan2_zero_zero : atan2 0 0 = 0 := by
  unfold atan2
  rw [show (⟨0, 0⟩ : ℂ) = 0 from Complex.ext rfl rfl]
  exact Complex.arg_zero

/-- C5: the claim says the matrix-to-Euler conversion takes the gimbal-lock
branch (bank forced to 0, heading from an arctangent of the remaining terms)
whenever `|sin pitch|` exceeds a near-unity threshold, in particular when
`|m23| = 1`.  The source compares against `9.99999` instead of `0.99999`, so
the branch is unreachable: on the exactly locked rotation matrix of
`{heading: 0, pitch: pi/2, bank: 3/10}` (whose `m23` is `-1`) the code runs
the regular branch and returns heading `atan2 0 0 = 0`, whereas the
lock-branch heading `atan2 (-m31) m11` equals `-3/10 ≠ 0`. -/
theorem C5_gimbal_branch_unreachable :
    (RotationMatrix.from_orientation ⟨0, Real.pi / 2, 3/10⟩).m23 = -1 ∧
    (EulerAngles.from_rotation_matrix
      (RotationMatrix.from_orientation ⟨0, Real.pi / 2, 3/10⟩)).heading = 0 ∧
    (EulerAngles.from_rotation_matrix
      (RotationMatrix.from_orientation ⟨0, Real.pi / 2, 3/10⟩)).bank = 0 ∧
    atan2 (-(RotationMatrix.from_orientation ⟨0, Real.pi / 2, 3/10⟩).m31)
      (RotationMatrix.from_orientation ⟨0, Real.pi / 2, 3/10⟩).m11 = -(3/10) ∧
    (-(3/10) : ℝ) ≠ 0 := by
  have hπ3 : 3 < Real.pi := Real.pi_gt_three
  have hM : RotationMatrix.from_orientation ⟨0, Real.pi / 2, 3/10⟩ =
      ⟨Real.cos (3/10), -Real.sin (3/10), 0, 0, 0, -1,
       Real.sin (3/10), Real.cos (3/10), 0⟩ := by
    simp only [RotationMatrix.from_orientation]
    rw [Real.sin_pi_div_two, Real.cos_pi_div_two, Real.sin_zero, Real.cos_zero]
    simp only [RotationMatrix.mk.injEq]
    norm_num
  have hcond : ¬ (9.99999 : ℝ) <
      |(-(RotationMatrix.from_orientation ⟨0, Real.pi / 2, 3/10⟩).m23)| := by
    rw [hM]
    show ¬ (9.99999 : ℝ) < |(-(-1 : ℝ))|
    norm_num
  have hreg := from_rm_regular _ hcond
  have hneg : atan2 (-Real.sin (3/10)) (Real.cos (3/10)) = -(3/10) := by
    unfold atan2
    have hmk : (⟨Real.cos (3/10), -Real.sin (3/10)⟩ : ℂ) =
        (Real.cos (-(3/10) : ℝ) : ℂ) + (Real.sin (-(3/10) : ℝ) : ℂ) * Complex.I := by
      rw [Real.cos_neg, Real.sin_neg, Complex.mk_eq_add_mul_I]
    rw [hmk, Complex.ofReal_cos, Complex.ofReal_sin]
    exact Complex.arg_cos_add_sin_mul_I ⟨by linarith, by linarith⟩
  refine ⟨by rw [hM], ?_, ?_, ?_, by norm_num⟩
  · rw [hreg, hM]
    exact atan2_zero_zero
  · rw [hreg, hM]
    exact atan2_zero_zero
  · rw [hM]
    exact hneg

end Chap10
